import Mathlib

/-!
Shallow embedding of the candidate-scoring aggregation pipeline of the
Talenti backend: the dimension collector and weighted aggregator of
`backend/app/api/scoring.py` (`score_interview`, `collect_dimensions`),
the fan-out orchestrator and retrying transport of
`backend/app/services/ml_client.py` (`get_combined_predictions`,
`MLClient._make_request`), and the culture-context resolver of
`backend/app/services/culture_fit.py`.

JSON values are modelled by the inductive `JVal`; Python dicts are
association lists with first-match lookup (Python dict keys are unique,
so first-match lookup agrees with dict lookup, and list order is the
dict's insertion order).  Python floats are modelled by exact rationals
(every numeric literal the pipeline is specified on is exact, and the
rounding function below implements Python's round-half-to-even).
`float(x)` coercion is modelled for numbers and booleans; numeric
strings — which Python would also coerce — are treated as non-coercible,
a path no property here exercises.
-/

namespace Talenti

/-- A JSON value (the shape of everything the prediction services emit
    and of the organisation configuration blob). -/
inductive JVal where
  | null : JVal
  | bool : Bool → JVal
  | num : ℚ → JVal
  | str : String → JVal
  | arr : List JVal → JVal
  | obj : List (String × JVal) → JVal

/-- Python truthiness of a JSON value (`if x:`). -/
def truthy : JVal → Bool
  | .null => false
  | .bool b => b
  | .num q => q ≠ 0
  | .str s => s ≠ ""
  | .arr xs => !xs.isEmpty
  | .obj fs => !fs.isEmpty

/-- Models `d.get(k)` on a dict rendered as an association list. -/
def jget (fields : List (String × JVal)) (k : String) : Option JVal :=
  (fields.find? (fun p => p.1 = k)).map (fun p => p.2)

/-- Models `d.get(k)` with Python's `None` default. -/
def jgetD (fields : List (String × JVal)) (k : String) : JVal :=
  (jget fields k).getD .null

/-- Models `isinstance(x, dict)`. -/
def isDict : JVal → Bool
  | .obj _ => true
  | _ => false

/-- Models `float(x)` where it succeeds: numbers are themselves, booleans are
    0/1 (Python treats `bool` as numeric); `None`, lists, dicts raise
    `TypeError`.  Numeric strings, which Python would parse, are modelled
    as failing — no claim exercises string-typed scores. -/
def pyFloat? : JVal → Option ℚ
  | .num q => some q
  | .bool b => some (if b then 1 else 0)
  | _ => none

/-- Python `str(x)` as used when interpolating a value into an f-string
    note.  Only string values are ever rendered by the claims; the other
    branches are total approximations (float repr is not reproduced). -/
def pyStr : JVal → String
  | .null => "None"
  | .bool b => if b then "True" else "False"
  | .num q => if q.den = 1 then toString q.num else toString q
  | .str s => s
  | .arr _ => "[...]"
  | .obj _ => "{...}"

/-- Whitespace as Python's `str.strip()` sees it (the ASCII whitespace
    characters; Python also strips some further Unicode space
    characters, which nothing in this pipeline's literals contains). -/
def pyIsSpace (c : Char) : Bool :=
  c = ' ' ∨ c = '\t' ∨ c = '\n' ∨ c = '\r' ∨ c = '\x0b' ∨ c = '\x0c'

/-- Python `s.strip()`: drop leading and trailing whitespace.  Defined
    over the character list so that it reduces inside the kernel. -/
def pyStrip (s : String) : String :=
  ⟨((s.data.dropWhile pyIsSpace).reverse.dropWhile pyIsSpace).reverse⟩

/-- Python 3's `round` to an integer: round half to even.  Written on
    the numerator/denominator integers so that it evaluates inside the
    kernel: `q.num / q.den` is `⌊q⌋` (`Rat.floor_def`), and comparing
    `2 * (q.num - ⌊q⌋ * q.den)` against `q.den` compares the fractional
    part `q - ⌊q⌋` against `1/2`. -/
def pyRound (q : ℚ) : ℤ :=
  let f : ℤ := q.num / (q.den : ℤ)
  let twice : ℤ := 2 * (q.num - f * (q.den : ℤ))
  if twice < (q.den : ℤ) then f
  else if (q.den : ℤ) < twice then f + 1
  else if f % 2 = 0 then f else f + 1

/-- Rational addition by cross-multiplication (provably `a + b`, see
    `qAdd_eq`; the library's `Rat.add` is irreducible, this form
    evaluates inside the kernel). -/
def qAdd (a b : ℚ) : ℚ :=
  Rat.divInt (a.num * (b.den : ℤ) + b.num * (a.den : ℤ)) ((a.den : ℤ) * (b.den : ℤ))

/-- Rational multiplication by cross-multiplication (provably `a * b`,
    see `qMul_eq`). -/
def qMul (a b : ℚ) : ℚ :=
  Rat.divInt (a.num * b.num) ((a.den : ℤ) * (b.den : ℤ))

/-- Rational division by cross-multiplication (provably `a / b`, see
    `qDiv_eq`). -/
def qDiv (a b : ℚ) : ℚ :=
  Rat.divInt (a.num * (b.den : ℤ)) ((a.den : ℤ) * b.num)

/-- Sum of a list of rationals via `qAdd` (provably `l.sum`, see
    `qSum_eq`). -/
def qSum (l : List ℚ) : ℚ := l.foldr qAdd 0

/-- Models `app.schemas.scoring.ScoringDimension`. -/
structure ScoringDimension where
  name : String
  score : ℤ
  rationale : Option String
deriving DecidableEq, Repr

/-- Models `app.schemas.scoring.ScoringResponse`. -/
structure ScoringResponse where
  interview_id : String
  overall_score : ℤ
  dimensions : List ScoringDimension
  summary : String
deriving DecidableEq, Repr

/-- Models `name or 'unknown'` (an empty string is falsy). -/
def nameOrUnknown (name : String) : String :=
  if name = "" then "unknown" else name

/-- One iteration of the `for name, data in scores.items()` loop of
    `collect_dimensions`: either a diagnostic note (the entry is
    skipped) or a normalized dimension.  Mirrors scoring.py lines
    160-187: the assertions on the name/payload/score-presence produce
    the "invalid score payload" note, a failing numeric coercion the
    "invalid score value" note; a valid score is rounded then clamped to
    [0, 100]; the rationale falls back to "<source> score." unless the
    payload carries a non-blank string rationale. -/
def collectEntry (source name : String) (data : JVal) :
    Sum String ScoringDimension :=
  if pyStrip name = "" then
    .inl (source ++ " returned invalid score payload for " ++ nameOrUnknown name ++ ".")
  else
    match data with
    | .obj dfields =>
      match jget dfields "score" with
      | none =>
        .inl (source ++ " returned invalid score payload for " ++ nameOrUnknown name ++ ".")
      | some sv =>
        match pyFloat? sv with
        | none =>
          .inl (source ++ " returned invalid score value for " ++ nameOrUnknown name ++ ".")
        | some q =>
          let score_value := pyRound q
          let rationale :=
            match jget dfields "rationale" with
            | some (.str r) =>
              if pyStrip r ≠ "" then source ++ ": " ++ pyStrip r else source ++ " score."
            | _ => source ++ " score."
          .inr ⟨name, max 0 (min 100 score_value), some rationale⟩
    | _ =>
      .inl (source ++ " returned invalid score payload for " ++ nameOrUnknown name ++ ".")

/-- The whole `for name, data in scores.items()` loop, in iteration
    order: dimensions and notes are appended in the order the entries
    appear. -/
def collectEntries (source : String) :
    List (String × JVal) → List ScoringDimension × List String
  | [] => ([], [])
  | (name, data) :: rest =>
    let tail := collectEntries source rest
    match collectEntry source name data with
    | .inl note => (tail.1, note :: tail.2)
    | .inr dim => (dim :: tail.1, tail.2)

/-- Models `collect_dimensions(result, source)` of scoring.py lines 144-193:
    short-circuit on a non-dict result, a truthy `error` value, or a
    missing/non-dict `scores` map; otherwise walk the score entries and
    finally append a summary note when `summary` is a non-blank string. -/
def collect_dimensions (result : JVal) (source : String) :
    List ScoringDimension × List String :=
  match result with
  | .obj fields =>
    if truthy (jgetD fields "error") then
      ([], [source ++ " failed: " ++ pyStr (jgetD fields "error")])
    else
      match jget fields "scores" with
      | some (.obj scoreFields) =>
        let collected := collectEntries source scoreFields
        let summaryNotes :=
          match jget fields "summary" with
          | some (.str s) => if pyStrip s ≠ "" then [source ++ " summary: " ++ pyStrip s] else []
          | _ => []
        (collected.1, collected.2 ++ summaryNotes)
      | _ => ([], [source ++ " returned no scores."])
  | _ => ([], [source ++ " returned an invalid response."])

/-! ### Weighted aggregation (scoring.py lines 198-275) -/

/-- The score group a dimension name collects during the
    `dimension_scores.setdefault(...)` pass: scores of same-named
    dimensions in concatenation order. -/
def groupScores (dims : List ScoringDimension) (name : String) : List ℤ :=
  (dims.filter (fun d => d.name = name)).map (fun d => d.score)

/-- The rationale group: `if dimension.rationale:` keeps only truthy
    rationales, so a null or empty-string rationale is dropped. -/
def groupRationaleParts (dims : List ScoringDimension) (name : String) : List String :=
  (dims.filter (fun d => d.name = name)).filterMap
    (fun d =>
      match d.rationale with
      | some r => if r ≠ "" then some r else none
      | none => none)

/-- The distinct dimension names (the keys of `dimension_scores`). -/
def dimensionNames (dims : List ScoringDimension) : List String :=
  (dims.map (fun d => d.name)).dedup

/-- Lexicographic comparison of character lists by code point — the
    order Python's `<` on `str` uses. -/
def charListLt : List Char → List Char → Bool
  | [], [] => false
  | [], _ :: _ => true
  | _ :: _, [] => false
  | a :: as, b :: bs =>
    if a.toNat < b.toNat then true
    else if b.toNat < a.toNat then false
    else charListLt as bs

/-- Python `a < b` on strings. -/
def strLt (a b : String) : Bool := charListLt a.data b.data

/-- Python `a <= b` on strings (the order `sorted` uses). -/
def strLe (a b : String) : Bool := ! strLt b a

/-- Models `sorted(dimension_scores.keys())`: Python's Timsort is a stable
    sort by `<=`; on the duplicate-free key list any sort by `strLe`
    produces the same list, so insertion sort models it. -/
def sortedNames (dims : List ScoringDimension) : List String :=
  List.insertionSort (fun a b => strLe a b = true) (dimensionNames dims)

/-- The merged dimension one name produces (scoring.py lines 213-224):
    the rounded mean of the group's scores — `max(1, len(scores))`
    guards the denominator as in the source — and the "; "-joined
    rationale parts, `None` when there are none. -/
def mergeDimension (dims : List ScoringDimension) (name : String) : ScoringDimension :=
  let scores := groupScores dims name
  let average_score := pyRound (Rat.divInt scores.sum (max 1 scores.length : ℕ))
  let parts := groupRationaleParts dims name
  ⟨name, average_score, if parts.isEmpty then none else some (String.intercalate "; " parts)⟩

/-- The final merged dimension list, one entry per sorted distinct name. -/
def mergedDimensions (dims : List ScoringDimension) : List ScoringDimension :=
  (sortedNames dims).map (mergeDimension dims)

/-- The weight one dimension receives (scoring.py lines 241-247):
    rubric lookup defaulting to `1.0`, `float(...)` coercion failure
    defaulting to `1.0`, negatives clamped to `0.0`. -/
def weightValue (rubric : List (String × JVal)) (name : String) : ℚ :=
  let weight := (jget rubric name).getD (.num 1)
  let weight_value := (pyFloat? weight).getD 1
  if weight_value < 0 then 0 else weight_value

/-- Models `total_weight` after the accumulation loop (`qSum` is list sum,
    see `qSum_eq`). -/
def totalWeight (dims : List ScoringDimension) (rubric : List (String × JVal)) : ℚ :=
  qSum (dims.map (fun d => weightValue rubric d.name))

/-- Models `weighted_sum` after the accumulation loop. -/
def weightedSum (dims : List ScoringDimension) (rubric : List (String × JVal)) : ℚ :=
  qSum (dims.map (fun d => qMul (d.score : ℚ) (weightValue rubric d.name)))

/-- Models `overall` (scoring.py lines 263-266): the weighted mean, or the
    unweighted mean of the merged scores when the total weight is
    non-positive. -/
def overallScore (dims : List ScoringDimension) (rubric : List (String × JVal)) : ℤ :=
  if totalWeight dims rubric ≤ 0 then
    pyRound (Rat.divInt (dims.map (fun d => d.score)).sum dims.length)
  else
    pyRound (qDiv (weightedSum dims rubric) (totalWeight dims rubric))

/-- Models `" ".join(summary_notes).strip() or "Automated scoring from model
    services."` (scoring.py line 269). -/
def summaryJoin (notes : List String) : String :=
  let joined := pyStrip (String.intercalate " " notes)
  if joined = "" then "Automated scoring from model services." else joined

/-- The post-dispatch stage of `score_interview` (scoring.py lines
    134-275): validate both raw results are objects, collect dimensions
    per source, abort when no group exists, merge, re-check the range
    assertion of the weighting loop (lines 239-240: the first
    out-of-range merged score aborts with an assertion message), and
    assemble the response.  The rubric parameter is `payload.rubric or
    {}`; pydantic types it `dict[str, float]`, but its values are kept
    as JSON values here because the weighting loop itself defends
    against non-numeric entries. -/
def scorePipeline (model1_result model2_result : JVal)
    (rubric : List (String × JVal)) (interview_id : String) :
    Except String ScoringResponse :=
  if ¬ isDict model1_result then .error "Culture model response was not a JSON object"
  else if ¬ isDict model2_result then .error "Skillset model response was not a JSON object"
  else
    let c1 := collect_dimensions model1_result "Culture model"
    let c2 := collect_dimensions model2_result "Skillset model"
    let allDims := c1.1 ++ c2.1
    if allDims.isEmpty then .error "No model scores returned."
    else
      let dims := mergedDimensions allDims
      match dims.find? (fun d => ¬ (0 ≤ d.score ∧ d.score ≤ 100)) with
      | some d => .error ("Invalid dimension score: Dimension score out of range for " ++ d.name)
      | none =>
        .ok { interview_id := interview_id
              overall_score := overallScore dims rubric
              dimensions := dims
              summary := summaryJoin (c1.2 ++ c2.2) }

/-! ### Fan-out orchestrator (ml_client.py lines 210-278) -/

/-- The outcome of awaiting one prediction coroutine under
    `asyncio.gather(..., return_exceptions=True)`: either its return
    value or the exception it raised, rendered by `str(e)`. -/
inductive CallOutcome where
  | ok : JVal → CallOutcome
  | raised : String → CallOutcome

/-- The per-call settlement of `get_combined_predictions` (ml_client.py
    lines 260-272): an exception becomes `{error, fallback: true}`, a
    non-dict return becomes `{error: "<label> returned invalid response
    type", fallback: true}`, a dict passes through. -/
def settleResult (result : CallOutcome) (label : String) : JVal :=
  match result with
  | .raised msg => .obj [("error", .str msg), ("fallback", .bool true)]
  | .ok v =>
    if isDict v then v
    else .obj [("error", .str (label ++ " returned invalid response type")), ("fallback", .bool true)]

/-- Models `get_combined_predictions` (ml_client.py lines 210-278).  With
    `return_exceptions=True` the gather call never re-raises a member
    coroutine's exception — each exception is returned in its slot — so
    the `except Exception` wrapper can only fire on a failure of the
    wrapper code itself, which has no counterpart in this embedding:
    the function is total and returns the two settled results. -/
def get_combined_predictions (r1 r2 : CallOutcome) : JVal × JVal :=
  (settleResult r1 "Model 1", settleResult r2 "Model 2")

/-! ### Retrying transport (ml_client.py lines 38-110) -/

/-- What one HTTP attempt of `_make_request` observes:
    `statusError` = `raise_for_status` threw (non-2xx status),
    `requestError` = connection-level `httpx.RequestError`,
    `parseFailure` = 2xx but `response.json()` raised `ValueError`,
    `parsed j` = 2xx with body parsed to `j`. -/
inductive AttemptOutcome where
  | statusError : ℕ → AttemptOutcome
  | requestError : String → AttemptOutcome
  | parseFailure : AttemptOutcome
  | parsed : JVal → AttemptOutcome

/-- Models `MLClient._make_request` (ml_client.py lines 38-110), over an
    oracle giving the outcome of attempt number `retry_count`.  Returns
    the result — `.error` carries the `MLServiceError` message — and
    the list of backoff sleeps (in seconds) performed, in order.
    The "Unexpected error: " wrapping on the invalid-JSON and
    invalid-shape messages is faithful: those `MLServiceError`s are
    raised inside the `try` block, so the blanket `except Exception`
    handler catches and re-wraps them; the assertion messages are not
    wrapped because `except AssertionError` precedes it, and an error
    from a recursive call propagates unwrapped because it is raised
    from within an `except` handler. -/
def make_request (oracle : ℕ → AttemptOutcome) (url endpoint : String) (payload : JVal)
    (max_retries : ℕ) (retry_count : ℕ) : Except String JVal × List ℕ :=
  if url = "" then (.error "Model service URL is not configured", [])
  else if endpoint = "" then (.error "Model service endpoint is required", [])
  else if ¬ isDict payload then (.error "Model payload must be a JSON object", [])
  else
    match oracle retry_count with
    | .parsed j =>
      if isDict j then (.ok j, [])
      else (.error "Unexpected error: Model service returned invalid response shape", [])
    | .parseFailure => (.error "Unexpected error: Model service returned invalid JSON", [])
    | .statusError code =>
      if h : retry_count < max_retries then
        let rest := make_request oracle url endpoint payload max_retries (retry_count + 1)
        (rest.1, 2 ^ retry_count :: rest.2)
      else (.error ("Model service returned error: " ++ toString code), [])
    | .requestError msg =>
      if h : retry_count < max_retries then
        let rest := make_request oracle url endpoint payload max_retries (retry_count + 1)
        (rest.1, 2 ^ retry_count :: rest.2)
      else (.error ("Failed to connect to model service: " ++ msg), [])
termination_by max_retries - retry_count
decreasing_by all_goals omega

/-! ### Culture-context resolution (culture_fit.py) -/

/-- Python `a or b` on JSON values. -/
def pyOr (a b : JVal) : JVal := if truthy a then a else b

/-- Models `isinstance(x, list)`. -/
def isList : JVal → Bool
  | .arr _ => true
  | _ => false

/-- Models `parse_values_framework` (culture_fit.py lines 13-20).  The DB
    column holds a JSON text; decoding is modelled structurally: a
    present, well-formed document is already a `JVal`, and a malformed
    or non-object document is any non-`obj` value.  The parsed dict is
    returned as its field list. -/
def parse_values_framework (raw : Option JVal) : Option (List (String × JVal)) :=
  match raw with
  | some (.obj fields) => some fields
  | _ => none

/-- Models `extract_operating_environment` (culture_fit.py lines 23-25):
    `values.get("operating_environment") or
    values.get("team_operating_environment")`, kept only when a dict. -/
def extract_operating_environment (values : List (String × JVal)) : Option JVal :=
  let env := pyOr (jgetD values "operating_environment") (jgetD values "team_operating_environment")
  if isDict env then some env else none

/-- Models `extract_taxonomy` (culture_fit.py lines 28-43): a nested `taxonomy`
    dict wins; otherwise the legacy shorthand — truthy `taxonomy_id` and
    `taxonomy_version`, and `values.get("signals") or
    values.get("taxonomy_signals")` being a list — is composed into the
    same shape. -/
def extract_taxonomy (values : List (String × JVal)) : Option JVal :=
  match jget values "taxonomy" with
  | some (.obj tfields) => some (.obj tfields)
  | _ =>
    let taxonomy_id := jgetD values "taxonomy_id"
    let version := jgetD values "taxonomy_version"
    let signals := pyOr (jgetD values "signals") (jgetD values "taxonomy_signals")
    if truthy taxonomy_id ∧ truthy version ∧ isList signals then
      some (.obj [("taxonomy_id", taxonomy_id),
                  ("version", version),
                  ("created_utc", jgetD values "taxonomy_created_utc"),
                  ("signals", signals)])
    else none

/-- Models `load_org_culture_context` (culture_fit.py lines 46-59), over the
    organisation's `values_framework` document.  `if not values:` makes
    an empty parsed dict fail like a missing one; `if not
    operating_environment:` / `if not taxonomy:` reject a falsy (empty)
    extracted dict. -/
def load_org_culture_context (values_framework : Option JVal) :
    Except String (JVal × JVal) :=
  match parse_values_framework values_framework with
  | none => .error "Organisation values_framework is missing or invalid JSON."
  | some values =>
    if values.isEmpty then
      .error "Organisation values_framework is missing or invalid JSON."
    else
      match extract_operating_environment values with
      | none => .error "Organisation values_framework missing operating_environment."
      | some env =>
        if ¬ truthy env then
          .error "Organisation values_framework missing operating_environment."
        else
          match extract_taxonomy values with
          | none => .error "Organisation values_framework missing taxonomy."
          | some tax =>
            if ¬ truthy tax then
              .error "Organisation values_framework missing taxonomy."
            else .ok (env, tax)

/-! ### Request schemas (app/schemas/scoring.py) and the orchestrator
    (scoring.py lines 16-132) -/

/-- Models `app.schemas.scoring.TranscriptSegment` (pydantic: both fields are
    required strings). -/
structure TranscriptSegment where
  speaker : String
  content : String

/-- Dump of an optional string list into JSON (`model_dump`). -/
def dumpOptStrList : Option (List String) → JVal
  | none => .null
  | some xs => .arr (xs.map JVal.str)

/-- Models `app.schemas.scoring.OperatingEnvironment`. -/
structure OperatingEnvironmentPayload where
  control_vs_autonomy : String
  outcome_vs_process : String
  conflict_style : String
  decision_reality : String
  ambiguity_load : String
  high_performance_archetype : String
  dimension_weights : List (String × ℚ)
  fatal_risks : Option (List String)
  coachable_risks : Option (List String)

/-- Models `payload.operating_environment.model_dump()`. -/
def OperatingEnvironmentPayload.model_dump (p : OperatingEnvironmentPayload) : JVal :=
  .obj [("control_vs_autonomy", .str p.control_vs_autonomy),
        ("outcome_vs_process", .str p.outcome_vs_process),
        ("conflict_style", .str p.conflict_style),
        ("decision_reality", .str p.decision_reality),
        ("ambiguity_load", .str p.ambiguity_load),
        ("high_performance_archetype", .str p.high_performance_archetype),
        ("dimension_weights", .obj (p.dimension_weights.map (fun kv => (kv.1, JVal.num kv.2)))),
        ("fatal_risks", dumpOptStrList p.fatal_risks),
        ("coachable_risks", dumpOptStrList p.coachable_risks)]

/-- Models `app.schemas.scoring.TaxonomySignal`. -/
structure TaxonomySignalPayload where
  signal_id : String
  dimension : String
  description : String
  score_map : List (String × ℚ)
  anti_signal_of : Option String
  tags : Option (List String)
  evidence_hints : Option (List String)

/-- Models `TaxonomySignal.model_dump()`. -/
def TaxonomySignalPayload.model_dump (s : TaxonomySignalPayload) : JVal :=
  .obj [("signal_id", .str s.signal_id),
        ("dimension", .str s.dimension),
        ("description", .str s.description),
        ("score_map", .obj (s.score_map.map (fun kv => (kv.1, JVal.num kv.2)))),
        ("anti_signal_of", (s.anti_signal_of.map JVal.str).getD .null),
        ("tags", dumpOptStrList s.tags),
        ("evidence_hints", dumpOptStrList s.evidence_hints)]

/-- Models `app.schemas.scoring.TaxonomyPayload`. -/
structure TaxonomyPayload where
  taxonomy_id : String
  version : String
  created_utc : Option String
  signals : List TaxonomySignalPayload

/-- Models `payload.taxonomy.model_dump()`. -/
def TaxonomyPayload.model_dump (t : TaxonomyPayload) : JVal :=
  .obj [("taxonomy_id", .str t.taxonomy_id),
        ("version", .str t.version),
        ("created_utc", (t.created_utc.map JVal.str).getD .null),
        ("signals", .arr (t.signals.map TaxonomySignalPayload.model_dump))]

/-- The fields of `app.schemas.scoring.ScoringRequest` the pipeline
    reads.  `rubric` values are kept as JSON values; pydantic types
    them `float`, but the weighting loop defends against non-numeric
    entries, and the claims quantify over that defence. -/
structure ScoringRequest where
  interview_id : String
  transcript : List TranscriptSegment
  rubric : Option (List (String × JVal))
  org_id : Option String
  role_id : Option String
  department_id : Option String
  application_id : Option String
  operating_environment : Option OperatingEnvironmentPayload
  taxonomy : Option TaxonomyPayload

/-- Models `app.models.Interview` as the resolver reads it. -/
structure InterviewRec where
  application_id : Option String

/-- Models `app.models.Application` as the resolver reads it. -/
structure ApplicationRec where
  job_role_id : Option String
  candidate_profile_id : Option String

/-- Models `app.models.JobRole` as the resolver reads it. -/
structure JobRoleRec where
  organisation_id : Option String
  department : Option String

/-- Models `app.models.Organisation` as the resolver reads it: the
    `values_framework` JSON document (see `parse_values_framework`). -/
structure OrganisationRec where
  values_framework : Option JVal

/-- The database as the resolver queries it, plus the membership check
    of `require_org_member` (deps.py lines 42-50) for the requesting
    user. -/
structure Db where
  interviews : String → Option InterviewRec
  applications : String → Option ApplicationRec
  job_roles : String → Option JobRoleRec
  organisations : String → Option OrganisationRec
  org_member : String → Bool

/-- The context a request resolves to before dispatch. -/
structure ResolvedContext where
  operating_environment : JVal
  taxonomy : JVal
  candidate_id : Option String
  role_id : Option String
  department_id : Option String

/-- Option-level Python truthiness for an optional string field
    (`None` and `""` are falsy). -/
def optTruthy : Option String → Bool
  | none => false
  | some s => s ≠ ""

/-- Python `x or y` for optional identifier fields. -/
def optOr (a b : Option String) : Option String :=
  if optTruthy a then a else b

/-- The context-resolution stage of `score_interview` (scoring.py lines
    45-98).  The explicit path dumps the two request payloads verbatim
    and touches no database entity; otherwise the resolver walks
    interview → application → job role to fill in missing identifiers,
    demands an organisation id, checks membership (403), loads the
    organisation (404) and its culture context.  The final truthiness
    re-check of lines 94-98 is kept. -/
def resolveScoringContext (payload : ScoringRequest) (db : Db) :
    Except String ResolvedContext :=
  let finalCheck : ResolvedContext → Except String ResolvedContext := fun ctx =>
    if ¬ truthy ctx.operating_environment ∨ ¬ truthy ctx.taxonomy then
      .error "Organisation operating_environment and taxonomy are required for culture fit scoring."
    else .ok ctx
  match payload.operating_environment, payload.taxonomy with
  | some oe, some tax =>
    finalCheck
      { operating_environment := oe.model_dump
        taxonomy := tax.model_dump
        candidate_id := none
        role_id := payload.role_id
        department_id := payload.department_id }
  | some _, none => .error "Both operating_environment and taxonomy are required for fit scoring."
  | none, some _ => .error "Both operating_environment and taxonomy are required for fit scoring."
  | none, none =>
    let interview := if payload.interview_id ≠ "" then db.interviews payload.interview_id else none
    let resolved_application_id :=
      match interview with
      | some iv => optOr payload.application_id iv.application_id
      | none => payload.application_id
    let application :=
      match resolved_application_id with
      | some aid => if aid ≠ "" then db.applications aid else none
      | none => none
    let resolved_role_id :=
      match application with
      | some app => optOr payload.role_id app.job_role_id
      | none => payload.role_id
    let candidate_id :=
      match application with
      | some app => app.candidate_profile_id
      | none => none
    let job_role :=
      match resolved_role_id with
      | some rid => if rid ≠ "" then db.job_roles rid else none
      | none => none
    let resolved_org_id :=
      match job_role with
      | some jr => optOr payload.org_id jr.organisation_id
      | none => payload.org_id
    let resolved_department_id :=
      match job_role with
      | some jr => optOr payload.department_id jr.department
      | none => payload.department_id
    match resolved_org_id with
    | none => .error "Organisation context is required for culture fit scoring."
    | some oid =>
      if oid = "" then .error "Organisation context is required for culture fit scoring."
      else if ¬ db.org_member oid then .error "Not an org member"
      else
        match db.organisations oid with
        | none => .error "Organisation not found"
        | some org =>
          match load_org_culture_context org.values_framework with
          | .error e => .error e
          | .ok (env, tax) =>
            finalCheck
              { operating_environment := env
                taxonomy := tax
                candidate_id := candidate_id
                role_id := resolved_role_id
                department_id := resolved_department_id }

/-- The whole `score_interview` endpoint (scoring.py lines 16-275) as a
    function of the request, the database, and the outcomes of the two
    prediction calls.  Transcript segments are non-null strings under
    pydantic, so input validation reduces to the non-empty check; the
    two call outcomes are settled by `get_combined_predictions` (which
    never raises for a single call's failure) and fed to the
    aggregation stage. -/
def score_interview (payload : ScoringRequest) (db : Db)
    (call1 call2 : CallOutcome) : Except String ScoringResponse :=
  if payload.transcript.isEmpty then .error "Transcript required"
  else
    match resolveScoringContext payload db with
    | .error e => .error e
    | .ok _ =>
      let settled := get_combined_predictions call1 call2
      scorePipeline settled.1 settled.2 (payload.rubric.getD []) payload.interview_id

/-! ### Claim-side definitions, written from the specification's words,
    for comparison against the source-side definitions above -/

/-- The rationale the specification's words prescribe for a merged
    group: "join all non-null rationales with `; `" — i.e. every
    `some` rationale is kept, including an empty string. -/
def specJoinedRationale (dims : List ScoringDimension) (name : String) : String :=
  String.intercalate "; " ((dims.filter (fun d => d.name = name)).filterMap (fun d => d.rationale))

/-- The per-dimension weight the specification's words prescribe: a
    rubric lookup by name, `1.0` when absent or when the value has no
    numeric coercion, negatives clamped to zero. -/
def claimWeight (rubric : List (String × JVal)) (name : String) : ℚ :=
  match jget rubric name with
  | none => 1
  | some w =>
    match pyFloat? w with
    | none => 1
    | some q => if q < 0 then 0 else q

/-! ### Concrete sample inputs used by witness theorems -/

/-- A concrete explicit operating environment. -/
def oeSample : OperatingEnvironmentPayload :=
  { control_vs_autonomy := "balanced"
    outcome_vs_process := "outcome"
    conflict_style := "direct"
    decision_reality := "consensus"
    ambiguity_load := "medium"
    high_performance_archetype := "builder"
    dimension_weights := [("ownership", 1)]
    fatal_risks := none
    coachable_risks := none }

/-- A concrete explicit taxonomy, distinct from any organisation's. -/
def taxSample : TaxonomyPayload :=
  { taxonomy_id := "tx-explicit"
    version := "v2"
    created_utc := none
    signals := [{ signal_id := "s1"
                  dimension := "ownership"
                  description := "owns outcomes"
                  score_map := [("high", 3)]
                  anti_signal_of := none
                  tags := none
                  evidence_hints := none }] }

/-- A request carrying both explicit context documents and an org id. -/
def requestBoth : ScoringRequest :=
  { interview_id := "iv1"
    transcript := [⟨"candidate", "hello"⟩]
    rubric := none
    org_id := some "orgA"
    role_id := none
    department_id := none
    application_id := none
    operating_environment := some oeSample
    taxonomy := some taxSample }

/-- The same request with only the operating environment supplied. -/
def requestOnlyOE : ScoringRequest :=
  { requestBoth with taxonomy := none }

/-- A database whose organisation `orgA` carries a different taxonomy
    (`tx-org`) than the explicit one. -/
def dbWithOrgA : Db :=
  { interviews := fun _ => none
    applications := fun _ => none
    job_roles := fun _ => none
    organisations := fun oid =>
      if oid = "orgA" then
        some ⟨some (.obj
          [("operating_environment", .obj [("control_vs_autonomy", .str "top-down")]),
           ("taxonomy", .obj [("taxonomy_id", .str "tx-org"),
                              ("version", .str "v9"),
                              ("signals", .arr [])])])⟩
      else none
    org_member := fun _ => true }

/-- An empty database. -/
def dbEmpty : Db :=
  { interviews := fun _ => none
    applications := fun _ => none
    job_roles := fun _ => none
    organisations := fun _ => none
    org_member := fun _ => false }

/-! ## Helper lemmas -/

theorem rat_floor_eq_num_ediv (q : ℚ) : q.num / (q.den : ℤ) = ⌊q⌋ :=
  Rat.floor_def.symm

theorem le_pyRound_of_le {z : ℤ} {q : ℚ} (h : (z : ℚ) ≤ q) : z ≤ pyRound q := by
  have h1 : z ≤ ⌊q⌋ := Int.le_floor.mpr h
  have h2 := rat_floor_eq_num_ediv q
  unfold pyRound
  dsimp only
  split
  next => omega
  next =>
    split
    next => omega
    next => split <;> omega

theorem pyRound_le_of_le {z : ℤ} {q : ℚ} (h : q ≤ (z : ℚ)) : pyRound q ≤ z := by
  have h2 := rat_floor_eq_num_ediv q
  have hfl : ⌊q⌋ ≤ z := by
    have h1 : ⌊q⌋ ≤ ⌊(z : ℚ)⌋ := Int.floor_le_floor h
    simpa using h1
  have hdenQ : (0 : ℚ) < ((q.den : ℤ) : ℚ) := by exact_mod_cast q.pos
  have hnum : (q.num : ℚ) = q * ((q.den : ℤ) : ℚ) := by
    have hd : (((q.den : ℤ)) : ℚ) ≠ 0 := ne_of_gt hdenQ
    have := Rat.num_div_den q
    push_cast at this ⊢
    exact (div_eq_iff (by exact_mod_cast hd)).mp this
  have hstep : ¬ (2 * (q.num - q.num / (q.den : ℤ) * (q.den : ℤ)) < (q.den : ℤ)) →
      q.num / (q.den : ℤ) + 1 ≤ z := by
    intro hr
    push_neg at hr
    set f : ℤ := q.num / (q.den : ℤ) with hfdef
    have hrc : ((q.den : ℤ) : ℚ) ≤ 2 * ((q.num : ℚ) - (f : ℚ) * ((q.den : ℤ) : ℚ)) := by
      exact_mod_cast hr
    rw [hnum] at hrc
    have hhalf : (f : ℚ) + 1/2 ≤ q := by nlinarith [hdenQ, hrc]
    have h4 : (f : ℚ) < (z : ℚ) := by linarith [le_trans hhalf h]
    have h5 : f < z := by exact_mod_cast h4
    omega
  unfold pyRound
  dsimp only
  split
  next => omega
  next hr =>
    split
    next => exact hstep hr
    next =>
      split
      next => omega
      next => exact hstep hr

theorem qAdd_eq (a b : ℚ) : qAdd a b = a + b := by
  unfold qAdd
  rw [Rat.divInt_eq_div]
  have ha : ((a.den : ℚ)) ≠ 0 := by exact_mod_cast a.den_nz
  have hb : ((b.den : ℚ)) ≠ 0 := by exact_mod_cast b.den_nz
  have hA : (a.num : ℚ) = a * (a.den : ℚ) := (div_eq_iff ha).mp (Rat.num_div_den a)
  have hB : (b.num : ℚ) = b * (b.den : ℚ) := (div_eq_iff hb).mp (Rat.num_div_den b)
  push_cast
  field_simp
  linear_combination ((b.den : ℚ)) * hA + ((a.den : ℚ)) * hB

theorem qMul_eq (a b : ℚ) : qMul a b = a * b := by
  unfold qMul
  rw [Rat.divInt_eq_div]
  have ha : ((a.den : ℚ)) ≠ 0 := by exact_mod_cast a.den_nz
  have hb : ((b.den : ℚ)) ≠ 0 := by exact_mod_cast b.den_nz
  have hA : (a.num : ℚ) = a * (a.den : ℚ) := (div_eq_iff ha).mp (Rat.num_div_den a)
  have hB : (b.num : ℚ) = b * (b.den : ℚ) := (div_eq_iff hb).mp (Rat.num_div_den b)
  push_cast
  field_simp
  linear_combination ((b.num : ℚ)) * hA + (a * (a.den : ℚ)) * hB

theorem qDiv_eq (a b : ℚ) : qDiv a b = a / b := by
  by_cases hb0 : b = 0
  · subst hb0
    unfold qDiv
    simp
  · unfold qDiv
    rw [Rat.divInt_eq_div]
    have ha : ((a.den : ℚ)) ≠ 0 := by exact_mod_cast a.den_nz
    have hb : ((b.den : ℚ)) ≠ 0 := by exact_mod_cast b.den_nz
    have hbn : ((b.num : ℚ)) ≠ 0 := by
      exact_mod_cast Rat.num_ne_zero.mpr hb0
    have hA : (a.num : ℚ) = a * (a.den : ℚ) := (div_eq_iff ha).mp (Rat.num_div_den a)
    have hB : (b.num : ℚ) = b * (b.den : ℚ) := (div_eq_iff hb).mp (Rat.num_div_den b)
    push_cast
    field_simp
    linear_combination ((b.den : ℚ) * b) * hA - (a * (a.den : ℚ)) * hB

theorem qSum_eq (l : List ℚ) : qSum l = l.sum := by
  induction l with
  | nil => rfl
  | cons x t ih =>
    show qAdd x (qSum t) = _
    rw [qAdd_eq, ih, List.sum_cons]

theorem list_sum_le_card_mul : ∀ {l : List ℤ} {c : ℤ}, (∀ x ∈ l, x ≤ c) → l.sum ≤ c * l.length := by
  intro l
  induction l with
  | nil => intro c _; simp
  | cons a t ih =>
    intro c h
    have h1 : a ≤ c := h a (by simp)
    have h2 : t.sum ≤ c * t.length := ih (fun x hx => h x (by simp [hx]))
    simp only [List.sum_cons, List.length_cons]
    push_cast
    linarith [h2, h1, mul_add c (t.length : ℤ) 1]

theorem list_sum_nonneg_int : ∀ {l : List ℤ}, (∀ x ∈ l, 0 ≤ x) → 0 ≤ l.sum := by
  intro l
  induction l with
  | nil => intro _; simp
  | cons a t ih =>
    intro h
    have h1 : 0 ≤ a := h a (by simp)
    have h2 : 0 ≤ t.sum := ih (fun x hx => h x (by simp [hx]))
    simp only [List.sum_cons]
    linarith

theorem mean_nonneg_le_hundred {scores : List ℤ}
    (h : ∀ s ∈ scores, 0 ≤ s ∧ s ≤ 100) :
    0 ≤ ((scores.sum : ℚ) / ((max 1 scores.length : ℕ) : ℚ)) ∧
      ((scores.sum : ℚ) / ((max 1 scores.length : ℕ) : ℚ)) ≤ 100 := by
  have hd : (0 : ℚ) < ((max 1 scores.length : ℕ) : ℚ) := by
    have : 1 ≤ max 1 scores.length := le_max_left _ _
    exact_mod_cast Nat.lt_of_lt_of_le Nat.zero_lt_one this
  constructor
  · apply div_nonneg _ (le_of_lt hd)
    exact_mod_cast list_sum_nonneg_int (fun x hx => (h x hx).1)
  · rw [div_le_iff₀ hd]
    have hs : scores.sum ≤ 100 * scores.length :=
      list_sum_le_card_mul (fun x hx => (h x hx).2)
    have hlen : (scores.length : ℤ) ≤ ((max 1 scores.length : ℕ) : ℤ) := by
      exact_mod_cast Nat.le_max_right 1 scores.length
    have : (scores.sum : ℚ) ≤ 100 * (scores.length : ℚ) := by exact_mod_cast hs
    have hc : (100 : ℚ) * (scores.length : ℚ) ≤ 100 * ((max 1 scores.length : ℕ) : ℚ) := by
      have : ((scores.length : ℚ)) ≤ (((max 1 scores.length : ℕ) : ℚ)) := by exact_mod_cast hlen
      linarith
    linarith

theorem mergeDimension_score_bounds {dims : List ScoringDimension}
    (h : ∀ d ∈ dims, 0 ≤ d.score ∧ d.score ≤ 100) (name : String) :
    0 ≤ (mergeDimension dims name).score ∧ (mergeDimension dims name).score ≤ 100 := by
  have hg : ∀ s ∈ groupScores dims name, 0 ≤ s ∧ s ≤ 100 := by
    intro s hs
    simp only [groupScores, List.mem_map, List.mem_filter] at hs
    obtain ⟨d, ⟨hd, _⟩, rfl⟩ := hs
    exact h d hd
  have hm := mean_nonneg_le_hundred hg
  unfold mergeDimension
  dsimp only
  have hdiv : Rat.divInt (groupScores dims name).sum ((max 1 (groupScores dims name).length : ℕ) : ℤ) =
      ((groupScores dims name).sum : ℚ) / (((max 1 (groupScores dims name).length : ℕ)) : ℚ) := by
    rw [Rat.divInt_eq_div]
    push_cast
    ring
  rw [hdiv]
  constructor
  · exact le_pyRound_of_le (by exact_mod_cast hm.1)
  · exact pyRound_le_of_le (by exact_mod_cast hm.2)

theorem mergedDimensions_score_bounds {dims : List ScoringDimension}
    (h : ∀ d ∈ dims, 0 ≤ d.score ∧ d.score ≤ 100) :
    ∀ d ∈ mergedDimensions dims, 0 ≤ d.score ∧ d.score ≤ 100 := by
  intro d hd
  simp only [mergedDimensions, List.mem_map] at hd
  obtain ⟨name, _, rfl⟩ := hd
  exact mergeDimension_score_bounds h name

theorem weightValue_eq_claimWeight (rubric : List (String × JVal)) (name : String) :
    weightValue rubric name = claimWeight rubric name := by
  unfold weightValue claimWeight
  cases hj : jget rubric name with
  | none => simp [pyFloat?]
  | some w =>
    cases w with
    | num q => simp [pyFloat?]
    | bool b => cases b <;> simp [pyFloat?]
    | null => simp [pyFloat?]
    | str s => simp [pyFloat?]
    | arr xs => simp [pyFloat?]
    | obj fs => simp [pyFloat?]

theorem totalWeight_eq_claim (dims : List ScoringDimension) (rubric : List (String × JVal)) :
    totalWeight dims rubric = (dims.map (fun d => claimWeight rubric d.name)).sum := by
  unfold totalWeight
  rw [qSum_eq]
  simp only [weightValue_eq_claimWeight]

theorem weightedSum_eq_claim (dims : List ScoringDimension) (rubric : List (String × JVal)) :
    weightedSum dims rubric =
      (dims.map (fun d => (d.score : ℚ) * claimWeight rubric d.name)).sum := by
  unfold weightedSum
  rw [qSum_eq]
  simp only [qMul_eq, weightValue_eq_claimWeight]

theorem list_sum_map_one {α : Type} (l : List α) :
    (l.map (fun _ => (1 : ℚ))).sum = l.length := by
  induction l with
  | nil => simp
  | cons a t ih =>
    simp [ih]
    ring

theorem list_score_cast_sum (dims : List ScoringDimension) :
    (dims.map (fun d => ((d.score : ℤ) : ℚ))).sum =
      (((dims.map (fun d => d.score)).sum : ℤ) : ℚ) := by
  induction dims with
  | nil => simp
  | cons a t ih => simp [ih]

theorem divInt_nat_eq_div (n : ℤ) (m : ℕ) :
    Rat.divInt n (m : ℤ) = (n : ℚ) / (m : ℚ) := by
  rw [Rat.divInt_eq_div]
  push_cast
  ring

theorem collectEntry_inr_bounds {source name : String} {data : JVal} {dim : ScoringDimension}
    (h : collectEntry source name data = .inr dim) :
    dim.name = name ∧ 0 ≤ dim.score ∧ dim.score ≤ 100 := by
  unfold collectEntry at h
  repeat' split at h
  any_goals cases h
  all_goals
    exact ⟨rfl, le_max_left _ _,
      max_le (by norm_num) ((min_le_left _ _).trans (by norm_num))⟩

theorem collectEntries_bounds {source : String} :
    ∀ {entries : List (String × JVal)}, ∀ d ∈ (collectEntries source entries).1,
      0 ≤ d.score ∧ d.score ≤ 100 := by
  intro entries
  induction entries with
  | nil => intro d hd; cases hd
  | cons p t ih =>
    intro d hd
    obtain ⟨name, data⟩ := p
    unfold collectEntries at hd
    dsimp only at hd
    rcases he : collectEntry source name data with note | dim
    · rw [he] at hd
      exact ih d hd
    · rw [he] at hd
      rcases List.mem_cons.mp hd with rfl | hmem
      · exact (collectEntry_inr_bounds he).2
      · exact ih d hmem

theorem collect_dimensions_bounds (result : JVal) (source : String) :
    ∀ d ∈ (collect_dimensions result source).1, 0 ≤ d.score ∧ d.score ≤ 100 := by
  unfold collect_dimensions
  intro d hd
  rcases result with _ | _ | _ | _ | _ | fields
  case obj =>
    dsimp only at hd
    split at hd
    · cases hd
    · split at hd
      next scoreFields _ =>
        dsimp only at hd
        exact collectEntries_bounds d hd
      next => cases hd
  all_goals cases hd

theorem isDict_settleResult (r : CallOutcome) (label : String) :
    isDict (settleResult r label) = true := by
  rcases r with v | m
  · show isDict (if isDict v = true then v else _) = true
    split
    next h => exact h
    next => rfl
  · rfl

theorem collect_dimensions_fallback (e source : String) :
    collect_dimensions (.obj [("error", .str e), ("fallback", .bool true)]) source =
      ([], [if e = "" then source ++ " returned no scores."
            else source ++ " failed: " ++ e]) := by
  by_cases he : e = "" <;>
    simp [collect_dimensions, jgetD, jget, truthy, pyStr, he, List.find?]

theorem jget_filter_error_self (fields : List (String × JVal)) :
    jget (fields.filter (fun p => p.1 ≠ "error")) "error" = none := by
  unfold jget
  have : List.find? (fun p => p.1 = "error") (fields.filter (fun p => p.1 ≠ "error")) = none := by
    rw [List.find?_eq_none]
    intro x hx
    simp only [List.mem_filter, decide_eq_true_eq] at hx
    simpa using hx.2
  rw [this]
  rfl

theorem jget_filter_error_ne {fields : List (String × JVal)} {k : String} (hk : k ≠ "error") :
    jget (fields.filter (fun p => p.1 ≠ "error")) k = jget fields k := by
  unfold jget
  congr 1
  induction fields with
  | nil => rfl
  | cons p t ih =>
    rw [List.filter_cons]
    by_cases hp : p.1 = "error"
    · have h1 : ¬ (decide (p.1 ≠ "error") = true) := by simp [hp]
      rw [if_neg h1, List.find?_cons]
      have h2 : decide (p.1 = k) = false := by
        simp only [decide_eq_false_iff_not]
        exact fun h => hk (h.symm.trans hp)
      rw [h2]
      exact ih
    · have h1 : decide (p.1 ≠ "error") = true := by simp [hp]
      rw [if_pos h1, List.find?_cons, List.find?_cons]
      cases hb : decide (p.1 = k)
      · simpa using ih
      · simp

/-! ## Claim theorems -/

/-- C1: on the spec's worked scenario — rubric `{ownership: 0.7,
    clarity: 0.3}`, service A returning `{scores: {ownership: {score:
    90}}}` and service B returning `{scores: {clarity: {score: 50},
    ownership: {score: 70}}}` — the collect-and-aggregate stage merges
    to `ownership = 80`, `clarity = 50` and `overall_score = 71`. -/
theorem claim_C1_worked_scenario :
    scorePipeline
      (.obj [("scores", .obj [("ownership", .obj [("score", .num 90)])])])
      (.obj [("scores", .obj [("clarity", .obj [("score", .num 50)]),
                              ("ownership", .obj [("score", .num 70)])])])
      [("ownership", .num (Rat.divInt 7 10)), ("clarity", .num (Rat.divInt 3 10))]
      "interview-1" =
    .ok { interview_id := "interview-1"
          overall_score := 71
          dimensions :=
            [⟨"clarity", 50, some "Skillset model score."⟩,
             ⟨"ownership", 80, some "Culture model score.; Skillset model score."⟩]
          summary := "Automated scoring from model services." } := by
  rfl

/-- C2 counterexample: when both prediction calls raise,
    `get_combined_predictions` does not propagate a top-level error —
    it returns exactly the two inline `{error, fallback: true}`
    results the claim says it must not return (the
    `asyncio.gather(..., return_exceptions=True)` call folds member
    exceptions into the result tuple, so the `except` wrapper never
    fires for them). -/
theorem claim_C2_counterexample :
    get_combined_predictions (.raised "timeout") (.raised "timeout") =
      (.obj [("error", .str "timeout"), ("fallback", .bool true)],
       .obj [("error", .str "timeout"), ("fallback", .bool true)]) := by
  rfl

/-- C2 (amended): when both prediction calls raise, the fan-out returns
    the two inline `{error, fallback: true}` results, and the scoring
    request is then aborted downstream by the no-usable-scores check
    with the 502 detail "No model scores returned." — not by a
    top-level aggregation error from the fan-out itself. -/
theorem claim_C2_amended (e1 e2 : String) (rubric : List (String × JVal)) (iv : String) :
    get_combined_predictions (.raised e1) (.raised e2) =
      (.obj [("error", .str e1), ("fallback", .bool true)],
       .obj [("error", .str e2), ("fallback", .bool true)]) ∧
    scorePipeline
      (get_combined_predictions (.raised e1) (.raised e2)).1
      (get_combined_predictions (.raised e1) (.raised e2)).2
      rubric iv = .error "No model scores returned." := by
  refine ⟨rfl, ?_⟩
  have h1 := collect_dimensions_fallback e1 "Culture model"
  have h2 := collect_dimensions_fallback e2 "Skillset model"
  show scorePipeline
      (.obj [("error", .str e1), ("fallback", .bool true)])
      (.obj [("error", .str e2), ("fallback", .bool true)]) rubric iv = _
  unfold scorePipeline
  rw [h1, h2]
  simp [isDict]

/-- C10: in the dimension collector, a result whose `error` value is
    present but falsy does not short-circuit with a failure note: the
    result behaves exactly as if the `error` key were absent, so
    collection proceeds to the `scores` map. -/
theorem claim_C10_falsy_error (fields : List (String × JVal)) (source : String)
    (h : truthy (jgetD fields "error") = false) :
    collect_dimensions (.obj fields) source =
      collect_dimensions (.obj (fields.filter (fun p => p.1 ≠ "error"))) source := by
  simp only [collect_dimensions]
  rw [jget_filter_error_ne (show "scores" ≠ "error" by decide),
      jget_filter_error_ne (show "summary" ≠ "error" by decide)]
  have herr : jgetD (fields.filter (fun p => p.1 ≠ "error")) "error" = .null := by
    unfold jgetD
    rw [jget_filter_error_self]
    rfl
  rw [herr, h]
  rfl

/-- C10 witness: a result with `error: ""` (falsy) and a valid scores
    map is collected as if no error key were present. -/
theorem claim_C10_witness :
    truthy (jgetD [("error", JVal.str ""),
                   ("scores", JVal.obj [("a", JVal.obj [("score", JVal.num 50)])])] "error") = false ∧
    collect_dimensions
      (.obj [("error", JVal.str ""),
             ("scores", JVal.obj [("a", JVal.obj [("score", JVal.num 50)])])]) "Culture model" =
    collect_dimensions
      (.obj ([("error", JVal.str ""),
              ("scores", JVal.obj [("a", JVal.obj [("score", JVal.num 50)])])].filter
        (fun p => p.1 ≠ "error"))) "Culture model" :=
  ⟨by rfl, claim_C10_falsy_error _ "Culture model" (by rfl)⟩

/-- C9 counterexample: a legacy-shorthand blob with a valid operating
    environment, truthy `taxonomy_id`/`taxonomy_version` and `signals`
    being the (empty) list `[]` does NOT resolve to a taxonomy: an
    empty `signals` list is falsy, `values.get("signals") or
    values.get("taxonomy_signals")` then yields `None`, the
    `isinstance(..., list)` test fails, and context resolution raises
    "missing taxonomy" — contradicting the claim, which asks only for
    "a signals list". -/
theorem claim_C9_counterexample :
    load_org_culture_context (some (.obj
      [("operating_environment", .obj [("control_vs_autonomy", .str "balanced")]),
       ("taxonomy_id", .str "t1"),
       ("taxonomy_version", .str "v1"),
       ("signals", .arr [])])) =
      .error "Organisation values_framework missing taxonomy." := by
  rfl

/-- C9 (amended): for every organisation blob whose parsed value has a
    valid (truthy) operating environment, no nested `taxonomy` dict,
    truthy `taxonomy_id` and `taxonomy_version`, and whose
    `values.get("signals") or values.get("taxonomy_signals")` — i.e. a
    truthy `signals` list, or a `taxonomy_signals` fallback when
    `signals` is absent or falsy — is a list, context resolution
    composes and returns the taxonomy object `{taxonomy_id, version,
    created_utc, signals}` whose `taxonomy_id` is the blob's; and a
    nested `taxonomy` dict always takes precedence over the shorthand
    fields. -/
theorem claim_C9_amended (values : List (String × JVal)) (env : JVal)
    (h1 : extract_operating_environment values = some env)
    (h2 : truthy env = true)
    (h3 : ∀ t, jget values "taxonomy" = some t → isDict t = false)
    (h4 : truthy (jgetD values "taxonomy_id") = true)
    (h5 : truthy (jgetD values "taxonomy_version") = true)
    (h6 : isList (pyOr (jgetD values "signals") (jgetD values "taxonomy_signals")) = true) :
    extract_taxonomy values = some (.obj
      [("taxonomy_id", jgetD values "taxonomy_id"),
       ("version", jgetD values "taxonomy_version"),
       ("created_utc", jgetD values "taxonomy_created_utc"),
       ("signals", pyOr (jgetD values "signals") (jgetD values "taxonomy_signals"))]) ∧
    jget [("taxonomy_id", jgetD values "taxonomy_id"),
          ("version", jgetD values "taxonomy_version"),
          ("created_utc", jgetD values "taxonomy_created_utc"),
          ("signals", pyOr (jgetD values "signals") (jgetD values "taxonomy_signals"))]
      "taxonomy_id" = some (jgetD values "taxonomy_id") ∧
    load_org_culture_context (some (.obj values)) = .ok (env, .obj
      [("taxonomy_id", jgetD values "taxonomy_id"),
       ("version", jgetD values "taxonomy_version"),
       ("created_utc", jgetD values "taxonomy_created_utc"),
       ("signals", pyOr (jgetD values "signals") (jgetD values "taxonomy_signals"))]) ∧
    (∀ (values' tfields : List (String × JVal)),
      jget values' "taxonomy" = some (.obj tfields) →
      extract_taxonomy values' = some (.obj tfields)) := by
  have hmain : extract_taxonomy values = some (.obj
      [("taxonomy_id", jgetD values "taxonomy_id"),
       ("version", jgetD values "taxonomy_version"),
       ("created_utc", jgetD values "taxonomy_created_utc"),
       ("signals", pyOr (jgetD values "signals") (jgetD values "taxonomy_signals"))]) := by
    unfold extract_taxonomy
    rcases htax : jget values "taxonomy" with _ | t
    · simp [h4, h5, h6]
    · have hd := h3 t htax
      cases t <;> simp_all [isDict, h4, h5, h6]
  refine ⟨hmain, rfl, ?_, ?_⟩
  · have hne : values ≠ [] := by
      intro hnil
      subst hnil
      simp [jgetD, jget, truthy] at h4
    unfold load_org_culture_context parse_values_framework
    dsimp only
    cases values with
    | nil => exact absurd rfl hne
    | cons p t =>
      rw [h1, hmain]
      simp only [h2]
      simp
      rfl
  · intro values' tfields h
    unfold extract_taxonomy
    rw [h]

/-- C9 witness: the spec's legacy-shorthand scenario blob, with a
    non-empty signals list, resolves to the composed taxonomy with
    `taxonomy_id = "t1"`. -/
theorem claim_C9_witness :
    load_org_culture_context (some (.obj
      [("operating_environment", .obj [("control_vs_autonomy", .str "balanced")]),
       ("taxonomy_id", .str "t1"),
       ("taxonomy_version", .str "v1"),
       ("signals", .arr [.obj [("signal_id", .str "s1")]])])) =
      .ok (.obj [("control_vs_autonomy", .str "balanced")],
           .obj [("taxonomy_id", .str "t1"),
                 ("version", .str "v1"),
                 ("created_utc", .null),
                 ("signals", .arr [.obj [("signal_id", .str "s1")]])]) := by
  have h := claim_C9_amended
    [("operating_environment", .obj [("control_vs_autonomy", .str "balanced")]),
     ("taxonomy_id", .str "t1"),
     ("taxonomy_version", .str "v1"),
     ("signals", .arr [.obj [("signal_id", .str "s1")]])]
    (.obj [("control_vs_autonomy", .str "balanced")])
    (by rfl) (by rfl)
    (by intro t ht; simp [jget, List.find?] at ht)
    (by rfl) (by rfl) (by rfl)
  exact h.2.2.1

/-- C8: when a request carries both an explicit operating environment
    and taxonomy they are used verbatim (their `model_dump`s become the
    resolved context), organisation lookup is bypassed entirely — the
    whole request's outcome is independent of the database, so an
    `org_id` pointing at an organisation with a different taxonomy
    cannot override the explicit one; when exactly one of the two is
    supplied, the request fails with the "both or neither" validation
    error for every database and every prediction-call outcome, i.e.
    before any prediction call can matter. -/
theorem claim_C8_explicit_context (payload : ScoringRequest) (db db' : Db)
    (c1 c2 : CallOutcome) (ht : payload.transcript ≠ []) :
    (∀ oe tax, payload.operating_environment = some oe → payload.taxonomy = some tax →
      resolveScoringContext payload db =
        .ok { operating_environment := oe.model_dump
              taxonomy := tax.model_dump
              candidate_id := none
              role_id := payload.role_id
              department_id := payload.department_id } ∧
      score_interview payload db c1 c2 = score_interview payload db' c1 c2) ∧
    (payload.operating_environment.isSome ≠ payload.taxonomy.isSome →
      score_interview payload db c1 c2 =
        .error "Both operating_environment and taxonomy are required for fit scoring.") := by
  have hte : payload.transcript.isEmpty = false := by
    cases h : payload.transcript with
    | nil => exact absurd h ht
    | cons a l => rfl
  constructor
  · intro oe tax hoe htax
    have h1 : truthy oe.model_dump = true := rfl
    have h2 : truthy tax.model_dump = true := rfl
    have hres : ∀ dbx : Db, resolveScoringContext payload dbx =
        .ok { operating_environment := oe.model_dump
              taxonomy := tax.model_dump
              candidate_id := none
              role_id := payload.role_id
              department_id := payload.department_id } := by
      intro dbx
      simp [resolveScoringContext, hoe, htax, h1, h2]
    refine ⟨hres db, ?_⟩
    simp [score_interview, hte, hres db, hres db']
  · intro hx
    rcases hoe : payload.operating_environment with _ | oe <;>
      rcases htax : payload.taxonomy with _ | tax
    · rw [hoe, htax] at hx
      exact absurd rfl hx
    · simp [score_interview, hte, resolveScoringContext, hoe, htax]
    · simp [score_interview, hte, resolveScoringContext, hoe, htax]
    · rw [hoe, htax] at hx
      exact absurd rfl hx

/-- C8 witness: the explicit context wins over organisation `orgA`'s
    different taxonomy, the outcome is database-independent, and
    supplying only the operating environment fails with the
    "both or neither" error regardless of the services. -/
theorem claim_C8_witness :
    resolveScoringContext requestBoth dbWithOrgA =
      .ok { operating_environment := oeSample.model_dump
            taxonomy := taxSample.model_dump
            candidate_id := none
            role_id := none
            department_id := none } ∧
    score_interview requestBoth dbWithOrgA (.raised "a") (.raised "b") =
      score_interview requestBoth dbEmpty (.raised "a") (.raised "b") ∧
    score_interview requestOnlyOE dbWithOrgA (.raised "a") (.raised "b") =
      .error "Both operating_environment and taxonomy are required for fit scoring." := by
  have ht : requestBoth.transcript ≠ [] := by simp [requestBoth]
  have ht2 : requestOnlyOE.transcript ≠ [] := by simp [requestOnlyOE, requestBoth]
  have h := claim_C8_explicit_context requestBoth dbWithOrgA dbEmpty (.raised "a") (.raised "b") ht
  have h2 := claim_C8_explicit_context requestOnlyOE dbWithOrgA dbEmpty (.raised "a") (.raised "b") ht2
  have hp := h.1 oeSample taxSample rfl rfl
  exact ⟨hp.1, hp.2, h2.2 (by decide)⟩

/-- C5: when service 1's call raises (with the nonempty message `str(e)`
    every raised exception carries here) and service 2 returns a result
    whose collection yields at least one dimension, the request still
    succeeds: the failed call is replaced in place by
    `{error: e, fallback: true}` without touching its sibling, the
    failed source contributes the single note "Culture model failed: e"
    and no dimensions, the response's dimensions and overall score are
    derived solely from the surviving service's dimensions, and the
    summary is built from the failure note followed by the surviving
    source's notes. -/
theorem claim_C5_partial_failure (e : String) (r2 : JVal)
    (rubric : List (String × JVal)) (iv : String)
    (he : e ≠ "")
    (hd : (collect_dimensions (settleResult (.ok r2) "Model 2") "Skillset model").1 ≠ []) :
    (get_combined_predictions (.raised e) (.ok r2)).1 =
      .obj [("error", .str e), ("fallback", .bool true)] ∧
    collect_dimensions (get_combined_predictions (.raised e) (.ok r2)).1 "Culture model" =
      ([], ["Culture model failed: " ++ e]) ∧
    ∃ resp,
      scorePipeline (get_combined_predictions (.raised e) (.ok r2)).1
        (get_combined_predictions (.raised e) (.ok r2)).2 rubric iv = .ok resp ∧
      resp.dimensions = mergedDimensions
        (collect_dimensions (settleResult (.ok r2) "Model 2") "Skillset model").1 ∧
      resp.overall_score = overallScore
        (mergedDimensions
          (collect_dimensions (settleResult (.ok r2) "Model 2") "Skillset model").1) rubric ∧
      resp.summary = summaryJoin (("Culture model failed: " ++ e)
        :: (collect_dimensions (settleResult (.ok r2) "Model 2") "Skillset model").2) := by
  have hcol1 : collect_dimensions (.obj [("error", .str e), ("fallback", .bool true)])
      "Culture model" = ([], ["Culture model failed: " ++ e]) := by
    rw [collect_dimensions_fallback]
    simp [he]
  refine ⟨rfl, hcol1, ?_⟩
  set m2 := settleResult (.ok r2) "Model 2" with hm2
  set c2 := collect_dimensions m2 "Skillset model" with hc2
  have hdict : isDict m2 = true := isDict_settleResult (.ok r2) "Model 2"
  have hbounds : ∀ d ∈ mergedDimensions c2.1, 0 ≤ d.score ∧ d.score ≤ 100 :=
    mergedDimensions_score_bounds
      (fun d hmem => collect_dimensions_bounds m2 "Skillset model" d hmem)
  have hfind : (mergedDimensions c2.1).find?
      (fun d => ¬ (0 ≤ d.score ∧ d.score ≤ 100)) = none := by
    rw [List.find?_eq_none]
    intro x hx
    have hb := hbounds x hx
    simp [hb.1, hb.2]
  have hemp : c2.1.isEmpty = false := by
    cases hc : c2.1 with
    | nil => exact absurd hc hd
    | cons a l => rfl
  refine ⟨{ interview_id := iv
            overall_score := overallScore (mergedDimensions c2.1) rubric
            dimensions := mergedDimensions c2.1
            summary := summaryJoin (("Culture model failed: " ++ e) :: c2.2) }, ?_, rfl, rfl, rfl⟩
  show scorePipeline (.obj [("error", .str e), ("fallback", .bool true)]) m2 rubric iv = _
  unfold scorePipeline
  rw [hcol1, ← hc2]
  simp only [List.nil_append]
  rw [if_neg (by simp [isDict]), if_neg (by simp [hdict])]
  rw [if_neg (by simp [hemp])]
  rw [hfind]
  rfl

/-- C5 witness: service 1 raises "boom", service 2 returns
    `{comm: 80, tech: 60}`; the pipeline succeeds with dimensions and
    overall score derived solely from service 2 and a summary built
    from the failure note. -/
theorem claim_C5_witness :
    ("boom" : String) ≠ "" ∧
    (collect_dimensions
      (settleResult (.ok (.obj [("scores",
        .obj [("comm", .obj [("score", .num 80)]),
              ("tech", .obj [("score", .num 60)])])])) "Model 2") "Skillset model").1 ≠ [] ∧
    ∃ resp,
      scorePipeline
        (get_combined_predictions (.raised "boom") (.ok (.obj [("scores",
          .obj [("comm", .obj [("score", .num 80)]),
                ("tech", .obj [("score", .num 60)])])]))).1
        (get_combined_predictions (.raised "boom") (.ok (.obj [("scores",
          .obj [("comm", .obj [("score", .num 80)]),
                ("tech", .obj [("score", .num 60)])])]))).2
        [] "iv" = .ok resp ∧
      resp.dimensions = mergedDimensions
        (collect_dimensions
          (settleResult (.ok (.obj [("scores",
            .obj [("comm", .obj [("score", .num 80)]),
                  ("tech", .obj [("score", .num 60)])])])) "Model 2") "Skillset model").1 ∧
      resp.overall_score = overallScore
        (mergedDimensions
          (collect_dimensions
            (settleResult (.ok (.obj [("scores",
              .obj [("comm", .obj [("score", .num 80)]),
                    ("tech", .obj [("score", .num 60)])])])) "Model 2") "Skillset model").1)
        [] ∧
      resp.summary = summaryJoin (("Culture model failed: " ++ "boom")
        :: (collect_dimensions
          (settleResult (.ok (.obj [("scores",
            .obj [("comm", .obj [("score", .num 80)]),
                  ("tech", .obj [("score", .num 60)])])])) "Model 2") "Skillset model").2) :=
  ⟨by decide, by decide,
   (claim_C5_partial_failure "boom"
     (.obj [("scores", .obj [("comm", .obj [("score", .num 80)]),
                             ("tech", .obj [("score", .num 60)])])])
     [] "iv" (by decide) (by decide)).2.2⟩

/-- C6: every ScoringDimension the pipeline emits has an integer score
    in [0, 100]: each per-source collected dimension is rounded and
    clamped into the range whatever the raw upstream value, and every
    dimension of a successful response (the merged list) stays in the
    range because averaging preserves it. -/
theorem claim_C6_clamping :
    (∀ (result : JVal) (source : String),
      ∀ d ∈ (collect_dimensions result source).1, 0 ≤ d.score ∧ d.score ≤ 100) ∧
    (∀ (m1 m2 : JVal) (rubric : List (String × JVal)) (iv : String) (resp : ScoringResponse),
      scorePipeline m1 m2 rubric iv = .ok resp →
      ∀ d ∈ resp.dimensions, 0 ≤ d.score ∧ d.score ≤ 100) := by
  refine ⟨collect_dimensions_bounds, ?_⟩
  intro m1 m2 rubric iv resp h d hdmem
  unfold scorePipeline at h
  split at h
  · exact absurd h (by simp)
  · split at h
    · exact absurd h (by simp)
    · dsimp only at h
      split at h
      · exact absurd h (by simp)
      · split at h
        · exact absurd h (by simp)
        · injection h with h'
          subst h'
          dsimp only at hdmem
          refine mergedDimensions_score_bounds ?_ d hdmem
          intro x hx
          rcases List.mem_append.mp hx with hx1 | hx2
          · exact collect_dimensions_bounds m1 "Culture model" x hx1
          · exact collect_dimensions_bounds m2 "Skillset model" x hx2

/-- C6 witness: raw scores 150 and -5 are clamped to 100 and 0, and the
    successful response's dimensions all lie in [0, 100]. -/
theorem claim_C6_witness :
    scorePipeline
      (.obj [("scores", .obj [("a", .obj [("score", .num 150)]),
                              ("b", .obj [("score", .num (-5))])])])
      (.obj [("scores", .obj [])]) [] "iv" =
      .ok { interview_id := "iv"
            overall_score := 50
            dimensions := [⟨"a", 100, some "Culture model score."⟩,
                           ⟨"b", 0, some "Culture model score."⟩]
            summary := "Automated scoring from model services." } ∧
    (∀ d ∈ ([⟨"a", 100, some "Culture model score."⟩,
             ⟨"b", 0, some "Culture model score."⟩] : List ScoringDimension),
      0 ≤ d.score ∧ d.score ≤ 100) := by
  have hok : scorePipeline
      (.obj [("scores", .obj [("a", .obj [("score", .num 150)]),
                              ("b", .obj [("score", .num (-5))])])])
      (.obj [("scores", .obj [])]) [] "iv" =
      .ok { interview_id := "iv"
            overall_score := 50
            dimensions := [⟨"a", 100, some "Culture model score."⟩,
                           ⟨"b", 0, some "Culture model score."⟩]
            summary := "Automated scoring from model services." } := by rfl
  exact ⟨hok, fun d hd => claim_C6_clamping.2 _ _ [] "iv" _ hok d hd⟩

/-- C4: the per-dimension weight is the rubric lookup by name with
    default 1.0 for a missing name or a non-coercible value and
    negatives clamped to zero (`claimWeight` states the claim's words;
    the code's accumulation agrees); with positive total weight,
    `overall_score = round(Σ(score·weight) / Σ(weight))`; with
    non-positive total weight it is the rounded unweighted mean; and in
    particular when no dimension name occurs in the rubric at all, the
    overall score equals the rounded mean of the merged scores. -/
theorem claim_C4_weighting (dims : List ScoringDimension) (rubric : List (String × JVal))
    (h : dims ≠ []) :
    (∀ d ∈ dims, weightValue rubric d.name = claimWeight rubric d.name) ∧
    totalWeight dims rubric = (dims.map (fun d => claimWeight rubric d.name)).sum ∧
    (0 < totalWeight dims rubric →
      overallScore dims rubric =
        pyRound ((dims.map (fun d => (d.score : ℚ) * claimWeight rubric d.name)).sum /
          (dims.map (fun d => claimWeight rubric d.name)).sum)) ∧
    (totalWeight dims rubric ≤ 0 →
      overallScore dims rubric =
        pyRound ((((dims.map (fun d => d.score)).sum : ℤ) : ℚ) / (dims.length : ℚ))) ∧
    ((∀ d ∈ dims, jget rubric d.name = none) →
      overallScore dims rubric =
        pyRound ((((dims.map (fun d => d.score)).sum : ℤ) : ℚ) / (dims.length : ℚ))) := by
  have hdiv : Rat.divInt (dims.map (fun d => d.score)).sum (dims.length : ℕ) =
      (((dims.map (fun d => d.score)).sum : ℤ) : ℚ) / (dims.length : ℚ) :=
    divInt_nat_eq_div _ _
  refine ⟨fun d _ => weightValue_eq_claimWeight rubric d.name,
          totalWeight_eq_claim dims rubric, ?_, ?_, ?_⟩
  · intro hpos
    unfold overallScore
    rw [if_neg (not_le.mpr hpos), qDiv_eq, weightedSum_eq_claim, totalWeight_eq_claim]
  · intro hle
    unfold overallScore
    rw [if_pos hle, hdiv]
  · intro hno
    have hcw : ∀ d ∈ dims, claimWeight rubric d.name = 1 := by
      intro d hd
      unfold claimWeight
      rw [hno d hd]
    have hmapw : dims.map (fun d => claimWeight rubric d.name) =
        dims.map (fun _ => (1 : ℚ)) :=
      List.map_congr_left hcw
    have hT : totalWeight dims rubric = (dims.length : ℚ) := by
      rw [totalWeight_eq_claim, hmapw, list_sum_map_one]
    have hlen : 0 < dims.length := List.length_pos.mpr h
    have hTpos : 0 < totalWeight dims rubric := by
      rw [hT]
      exact_mod_cast hlen
    have hW : weightedSum dims rubric =
        (((dims.map (fun d => d.score)).sum : ℤ) : ℚ) := by
      rw [weightedSum_eq_claim, ← list_score_cast_sum]
      congr 1
      refine List.map_congr_left ?_
      intro d hd
      rw [hcw d hd, mul_one]
    unfold overallScore
    rw [if_neg (not_le.mpr hTpos), qDiv_eq, hW, hT]

/-- C4 witness: two merged dimensions 80 and 50 with a rubric that
    mentions none of their names — every weight defaults, so the
    overall score is the rounded unweighted mean, 65. -/
theorem claim_C4_witness :
    ([⟨"a", 80, none⟩, ⟨"b", 50, none⟩] : List ScoringDimension) ≠ [] ∧
    (∀ d ∈ ([⟨"a", 80, none⟩, ⟨"b", 50, none⟩] : List ScoringDimension),
      jget [("zzz", JVal.num 0)] d.name = none) ∧
    overallScore [⟨"a", 80, none⟩, ⟨"b", 50, none⟩] [("zzz", JVal.num 0)] = 65 ∧
    overallScore [⟨"a", 80, none⟩, ⟨"b", 50, none⟩] [("zzz", JVal.num 0)] =
      pyRound ((((([⟨"a", 80, none⟩, ⟨"b", 50, none⟩] : List ScoringDimension).map
        (fun d => d.score)).sum : ℤ) : ℚ) /
        (([⟨"a", 80, none⟩, ⟨"b", 50, none⟩] : List ScoringDimension).length : ℚ)) := by
  have hnone : ∀ d ∈ ([⟨"a", 80, none⟩, ⟨"b", 50, none⟩] : List ScoringDimension),
      jget [("zzz", JVal.num 0)] d.name = none := by
    intro d hd
    cases hd with
    | head => rfl
    | tail _ hd2 =>
      cases hd2 with
      | head => rfl
      | tail _ h3 => cases h3
  exact ⟨by decide, hnone, by decide,
    (claim_C4_weighting [⟨"a", 80, none⟩, ⟨"b", 50, none⟩] [("zzz", JVal.num 0)]
      (by decide)).2.2.2.2 hnone⟩

/-- C7: `_make_request` performs at most `max_retries` retries beyond
    the first attempt (so at most `1 + max_retries` attempts from
    `retry_count = 0`; the recursion is total), sleeps exactly
    `2^retry_count` seconds before each retry in increasing order, only
    ever returns successfully with a dict parsed from a response body,
    and when every attempt fails with a non-2xx status it raises
    `MLServiceError` carrying the last attempt's status code after
    exhausting the retries. -/
theorem claim_C7_transport (oracle : ℕ → AttemptOutcome) (codes : ℕ → ℕ)
    (url endpoint : String) (payload : JVal) (max_retries retry_count : ℕ) :
    (make_request oracle url endpoint payload max_retries retry_count).2.length
        ≤ max_retries - retry_count ∧
    (make_request oracle url endpoint payload max_retries retry_count).2 =
      (List.range' retry_count
        (make_request oracle url endpoint payload max_retries retry_count).2.length).map
        (fun k => 2 ^ k) ∧
    (∀ j, (make_request oracle url endpoint payload max_retries retry_count).1 = .ok j →
      isDict j = true ∧ ∃ k, oracle k = .parsed j) ∧
    ((∀ k, oracle k = .statusError (codes k)) → url ≠ "" → endpoint ≠ "" →
      isDict payload = true →
      (make_request oracle url endpoint payload max_retries retry_count).1 =
        .error ("Model service returned error: " ++
          toString (codes (max retry_count max_retries))) ∧
      (make_request oracle url endpoint payload max_retries retry_count).2.length =
        max_retries - retry_count) := by
  generalize hn : max_retries - retry_count = n
  induction n generalizing retry_count with
  | zero =>
    rw [make_request]
    split
    next hurl =>
      refine ⟨by simp, by simp, ?_, ?_⟩
      · intro j h
        exact absurd h (by simp)
      · intro _ hu _ _
        exact absurd hurl hu
    next hurl =>
      split
      next hend =>
        refine ⟨by simp, by simp, ?_, ?_⟩
        · intro j h
          exact absurd h (by simp)
        · intro _ _ he _
          exact absurd hend he
      next hend =>
        split
        next hpay =>
          refine ⟨by simp, by simp, ?_, ?_⟩
          · intro j h
            exact absurd h (by simp)
          · intro _ _ _ hp
            exact absurd hp hpay
        next hpay =>
          split
          next j heq =>
            split
            next hdj =>
              refine ⟨by simp, by simp, ?_, ?_⟩
              · intro j' h
                simp only at h
                injection h with h'
                subst h'
                exact ⟨hdj, retry_count, heq⟩
              · intro hall _ _ _
                rw [hall retry_count] at heq
                cases heq
            next hdj =>
              refine ⟨by simp, by simp, ?_, ?_⟩
              · intro j' h
                exact absurd h (by simp)
              · intro hall _ _ _
                rw [hall retry_count] at heq
                cases heq
          next heq =>
            refine ⟨by simp, by simp, ?_, ?_⟩
            · intro j' h
              exact absurd h (by simp)
            · intro hall _ _ _
              rw [hall retry_count] at heq
              cases heq
          next code heq =>
            split
            next hlt => exact absurd hlt (by omega)
            next hge =>
              refine ⟨by simp, by simp, ?_, ?_⟩
              · intro j h
                exact absurd h (by simp)
              · intro hall _ _ _
                rw [hall retry_count] at heq
                injection heq with hc
                have hmax : max retry_count max_retries = retry_count := by omega
                refine ⟨?_, by simp⟩
                simp only
                rw [hmax, hc]
          next msg heq =>
            split
            next hlt => exact absurd hlt (by omega)
            next hge =>
              refine ⟨by simp, by simp, ?_, ?_⟩
              · intro j h
                exact absurd h (by simp)
              · intro hall _ _ _
                rw [hall retry_count] at heq
                cases heq
  | succ n ih =>
    rw [make_request]
    split
    next hurl =>
      refine ⟨by simp, by simp, ?_, ?_⟩
      · intro j h
        exact absurd h (by simp)
      · intro _ hu _ _
        exact absurd hurl hu
    next hurl =>
      split
      next hend =>
        refine ⟨by simp, by simp, ?_, ?_⟩
        · intro j h
          exact absurd h (by simp)
        · intro _ _ he _
          exact absurd hend he
      next hend =>
        split
        next hpay =>
          refine ⟨by simp, by simp, ?_, ?_⟩
          · intro j h
            exact absurd h (by simp)
          · intro _ _ _ hp
            exact absurd hp hpay
        next hpay =>
          split
          next j heq =>
            split
            next hdj =>
              refine ⟨by simp, by simp, ?_, ?_⟩
              · intro j' h
                simp only at h
                injection h with h'
                subst h'
                exact ⟨hdj, retry_count, heq⟩
              · intro hall _ _ _
                rw [hall retry_count] at heq
                cases heq
            next hdj =>
              refine ⟨by simp, by simp, ?_, ?_⟩
              · intro j' h
                exact absurd h (by simp)
              · intro hall _ _ _
                rw [hall retry_count] at heq
                cases heq
          next heq =>
            refine ⟨by simp, by simp, ?_, ?_⟩
            · intro j' h
              exact absurd h (by simp)
            · intro hall _ _ _
              rw [hall retry_count] at heq
              cases heq
          next code heq =>
            split
            next hlt =>
              obtain ⟨ih1, ih2, ih3, ih4⟩ := ih (retry_count + 1) (by omega)
              refine ⟨?_, ?_, ?_, ?_⟩
              · simp only [List.length_cons]
                omega
              · simp only [List.length_cons]
                rw [List.range'_succ, List.map_cons]
                exact congrArg _ ih2
              · intro j h
                exact ih3 j h
              · intro hall hu he hp
                obtain ⟨e4a, e4b⟩ := ih4 hall hu he hp
                have hmax : max (retry_count + 1) max_retries = max retry_count max_retries := by
                  omega
                refine ⟨?_, ?_⟩
                · simp only
                  rw [← hmax]
                  exact e4a
                · simp only [List.length_cons, e4b]
            next hge => exact absurd hn (by omega)
          next msg heq =>
            split
            next hlt =>
              obtain ⟨ih1, ih2, ih3, ih4⟩ := ih (retry_count + 1) (by omega)
              refine ⟨?_, ?_, ?_, ?_⟩
              · simp only [List.length_cons]
                omega
              · simp only [List.length_cons]
                rw [List.range'_succ, List.map_cons]
                exact congrArg _ ih2
              · intro j h
                exact ih3 j h
              · intro hall hu he hp
                rw [hall retry_count] at heq
                cases heq
            next hge => exact absurd hn (by omega)

/-- C7 witness: with every attempt returning HTTP 500 and the default
    `max_retries = 3`, the transport sleeps 1, 2 and 4 seconds (the
    three backoffs of attempts 0, 1, 2) and fails with the
    `MLServiceError` message carrying the last status code. -/
theorem claim_C7_witness :
    (make_request (fun _ => .statusError 500) "http://svc" "/predict" (.obj []) 3 0).1 =
      .error "Model service returned error: 500" ∧
    (make_request (fun _ => .statusError 500) "http://svc" "/predict" (.obj []) 3 0).2 =
      [1, 2, 4] := by
  have h := claim_C7_transport (fun _ => .statusError 500) (fun _ => 500)
    "http://svc" "/predict" (.obj []) 3 0
  have h4 := h.2.2.2 (fun _ => rfl) (by decide) (by decide) (by rfl)
  refine ⟨h4.1, ?_⟩
  have h2 := h.2.1
  rw [h4.2] at h2
  simpa using h2

/-! ### Order facts about the code-point comparison, used for C3 -/

theorem charListLt_irrefl : ∀ l, charListLt l l = false := by
  intro l
  induction l with
  | nil => rfl
  | cons a t ih => simp [charListLt, ih]

theorem charListLt_trans : ∀ a b c, charListLt a b = true → charListLt b c = true →
    charListLt a c = true := by
  intro a
  induction a with
  | nil =>
    intro b c hab hbc
    cases b with
    | nil => simp [charListLt] at hab
    | cons y ys =>
      cases c with
      | nil => simp [charListLt] at hbc
      | cons z zs => rfl
  | cons x xs ih =>
    intro b c hab hbc
    cases b with
    | nil => simp [charListLt] at hab
    | cons y ys =>
      cases c with
      | nil => simp [charListLt] at hbc
      | cons z zs =>
        simp only [charListLt] at hab hbc ⊢
        by_cases h1 : x.toNat < y.toNat
        · by_cases h2 : y.toNat < z.toNat
          · simp [Nat.lt_trans h1 h2]
          · by_cases h4 : z.toNat < y.toNat
            · simp [h2, h4] at hbc
            · have h3 : x.toNat < z.toNat := by omega
              simp [h3]
        · by_cases h5 : y.toNat < x.toNat
          · simp [h1, h5] at hab
          · simp only [h1, if_false, h5] at hab
            by_cases h2 : y.toNat < z.toNat
            · have h3 : x.toNat < z.toNat := by omega
              simp [h3]
            · by_cases h4 : z.toNat < y.toNat
              · simp [h2, h4] at hbc
              · have h3 : ¬ x.toNat < z.toNat := by omega
                have h6 : ¬ z.toNat < x.toNat := by omega
                simp only [h2, if_false, h4] at hbc
                simp only [h3, if_false, h6]
                exact ih ys zs hab hbc

theorem charListLt_connex : ∀ a b, charListLt a b = false → charListLt b a = false →
    a = b := by
  intro a
  induction a with
  | nil =>
    intro b h1 _
    cases b with
    | nil => rfl
    | cons y ys => simp [charListLt] at h1
  | cons x xs ih =>
    intro b h1 h2
    cases b with
    | nil => simp [charListLt] at h2
    | cons y ys =>
      simp only [charListLt] at h1 h2
      by_cases hx : x.toNat < y.toNat
      · simp [hx] at h1
      · by_cases hy : y.toNat < x.toNat
        · simp [hy] at h2
        · have heq : x.toNat = y.toNat := by omega
          simp only [hx, if_false, hy] at h1 h2
          have hxs := ih ys h1 h2
          have hchar : x = y := Char.ext (UInt32.ext heq)
          rw [hchar, hxs]

theorem string_eq_of_data_eq {a b : String} (h : a.data = b.data) : a = b := by
  cases a
  cases b
  exact congrArg String.mk h

theorem strLe_total : ∀ a b : String, strLe a b = true ∨ strLe b a = true := by
  intro a b
  unfold strLe strLt
  by_cases h : charListLt b.data a.data = true
  · right
    by_cases h2 : charListLt a.data b.data = true
    · have := charListLt_trans _ _ _ h2 h
      rw [charListLt_irrefl] at this
      cases this
    · simp [h2]
  · left
    simp [h]

theorem strLe_trans_thm : ∀ a b c : String, strLe a b = true → strLe b c = true →
    strLe a c = true := by
  intro a b c hab hbc
  unfold strLe strLt at hab hbc ⊢
  simp only [Bool.not_eq_true'] at hab hbc ⊢
  by_cases hca : charListLt c.data a.data = true
  · by_cases hbc2 : charListLt b.data c.data = true
    · have := charListLt_trans _ _ _ hbc2 hca
      rw [this] at hab
      cases hab
    · have hbceq : b.data = c.data :=
        charListLt_connex _ _ (by simpa using hbc2) hbc
      rw [← hbceq] at hca
      rw [hca] at hab
      cases hab
  · simpa using hca

theorem strLe_antisymm_thm : ∀ a b : String, strLe a b = true → strLe b a = true →
    a = b := by
  intro a b hab hba
  unfold strLe strLt at hab hba
  simp only [Bool.not_eq_true'] at hab hba
  exact string_eq_of_data_eq (charListLt_connex _ _ hba hab)

theorem strLt_of_le_of_ne {a b : String} (hle : strLe a b = true) (hne : a ≠ b) :
    strLt a b = true := by
  unfold strLe strLt at hle
  unfold strLt
  simp only [Bool.not_eq_true'] at hle
  by_cases h : charListLt a.data b.data = true
  · exact h
  · exact absurd (string_eq_of_data_eq (charListLt_connex _ _ (by simpa using h) hle)) hne

theorem sortedNames_sorted_le (dims : List ScoringDimension) :
    List.Sorted (fun a b : String => strLe a b = true) (sortedNames dims) := by
  haveI : IsTotal String (fun a b => strLe a b = true) := ⟨strLe_total⟩
  haveI : IsTrans String (fun a b => strLe a b = true) := ⟨strLe_trans_thm⟩
  exact List.sorted_insertionSort _ _

theorem sortedNames_nodup (dims : List ScoringDimension) : (sortedNames dims).Nodup :=
  ((List.perm_insertionSort _ _).nodup_iff).mpr (List.nodup_dedup _)

theorem sortedNames_mem (dims : List ScoringDimension) (n : String) :
    n ∈ sortedNames dims ↔ n ∈ dims.map (fun d => d.name) := by
  unfold sortedNames dimensionNames
  rw [(List.perm_insertionSort _ _).mem_iff, List.mem_dedup]

theorem sortedNames_sorted_lt (dims : List ScoringDimension) :
    List.Sorted (fun a b : String => strLt a b = true) (sortedNames dims) := by
  have hs := sortedNames_sorted_le dims
  have hn := sortedNames_nodup dims
  exact (hs.and hn).imp (fun h => strLt_of_le_of_ne h.1 h.2)

theorem mergedDimensions_map_name (dims : List ScoringDimension) :
    (mergedDimensions dims).map (fun d => d.name) = sortedNames dims := by
  unfold mergedDimensions
  rw [List.map_map]
  have : ((fun d : ScoringDimension => d.name) ∘ fun n => mergeDimension dims n) = id :=
    funext (fun n => rfl)
  rw [this, List.map_id]

theorem sortedNames_swap (A B : List ScoringDimension) :
    sortedNames (A ++ B) = sortedNames (B ++ A) := by
  haveI : IsTotal String (fun a b => strLe a b = true) := ⟨strLe_total⟩
  haveI : IsTrans String (fun a b => strLe a b = true) := ⟨strLe_trans_thm⟩
  haveI : IsAntisymm String (fun a b => strLe a b = true) := ⟨strLe_antisymm_thm⟩
  have hperm : List.Perm (sortedNames (A ++ B)) (sortedNames (B ++ A)) := by
    rw [List.perm_ext_iff_of_nodup (sortedNames_nodup _) (sortedNames_nodup _)]
    intro n
    rw [sortedNames_mem, sortedNames_mem]
    simp [or_comm]
  exact List.eq_of_perm_of_sorted hperm (sortedNames_sorted_le _) (sortedNames_sorted_le _)

theorem groupScores_swap (A B : List ScoringDimension) (name : String) :
    List.Perm (groupScores (A ++ B) name) (groupScores (B ++ A) name) := by
  unfold groupScores
  apply List.Perm.map
  rw [List.filter_append, List.filter_append]
  exact List.perm_append_comm

theorem mergeDimension_score_swap (A B : List ScoringDimension) (name : String) :
    (mergeDimension (A ++ B) name).score = (mergeDimension (B ++ A) name).score := by
  unfold mergeDimension
  dsimp only
  have hperm := groupScores_swap A B name
  rw [hperm.sum_eq, hperm.length_eq]

theorem mergedDimensions_swap_name_score (A B : List ScoringDimension) :
    (mergedDimensions (B ++ A)).map (fun d => (d.name, d.score)) =
      (mergedDimensions (A ++ B)).map (fun d => (d.name, d.score)) := by
  unfold mergedDimensions
  rw [← sortedNames_swap A B, List.map_map, List.map_map]
  refine List.map_congr_left ?_
  intro n _
  show ((mergeDimension (B ++ A) n).name, (mergeDimension (B ++ A) n).score) =
    ((mergeDimension (A ++ B) n).name, (mergeDimension (A ++ B) n).score)
  have hs := mergeDimension_score_swap A B n
  rw [Prod.mk.injEq]
  exact ⟨rfl, hs.symm⟩

theorem overallScore_congr {dims1 dims2 : List ScoringDimension}
    (h : dims1.map (fun d => (d.name, d.score)) = dims2.map (fun d => (d.name, d.score)))
    (rubric : List (String × JVal)) :
    overallScore dims1 rubric = overallScore dims2 rubric := by
  have eT : dims1.map (fun d => weightValue rubric d.name) =
      dims2.map (fun d => weightValue rubric d.name) := by
    have := congrArg (List.map (fun p : String × ℤ => weightValue rubric p.1)) h
    simpa [List.map_map] using this
  have eW : dims1.map (fun d => qMul (d.score : ℚ) (weightValue rubric d.name)) =
      dims2.map (fun d => qMul (d.score : ℚ) (weightValue rubric d.name)) := by
    have := congrArg (List.map (fun p : String × ℤ => qMul (p.2 : ℚ) (weightValue rubric p.1))) h
    simpa [List.map_map] using this
  have eS : dims1.map (fun d => d.score) = dims2.map (fun d => d.score) := by
    have := congrArg (List.map (fun p : String × ℤ => p.2)) h
    simpa [List.map_map] using this
  have eL : dims1.length = dims2.length := by
    have := congrArg List.length h
    simpa using this
  unfold overallScore totalWeight weightedSum
  rw [eT, eW, eS, eL]

/-- C3 counterexample: a source dimension carrying the non-null but
    empty rationale `some ""` falsifies the claim's "non-null rationales
    joined" clause: Python's `if dimension.rationale:` drops the falsy
    empty string, so the merged rationale is `None`, not the join of
    the non-null rationales (which would be `some ""`). -/
theorem claim_C3_counterexample :
    (mergeDimension [⟨"a", 1, some ""⟩] "a").rationale ≠
      some (specJoinedRationale [⟨"a", 1, some ""⟩] "a") := by
  decide

/-- C3 (amended): the aggregator groups input dimensions by exact
    case-sensitive name and emits one merged dimension per distinct
    name, sorted lexicographically (strictly, by code point); each
    merged dimension's score is the rounded arithmetic mean of its
    group's scores, and its rationale joins the group's truthy
    (non-null and non-empty) rationales with "; " (None when there are
    none); and the computation is deterministic and independent of
    source arrival order — swapping the two sources yields the same
    name/score sequence and the same overall score. -/
theorem claim_C3_amended (A B : List ScoringDimension) (rubric : List (String × JVal)) :
    (mergedDimensions (A ++ B)).map (fun d => d.name) = sortedNames (A ++ B) ∧
    List.Sorted (fun a b => strLt a b = true)
      ((mergedDimensions (A ++ B)).map (fun d => d.name)) ∧
    (∀ name, name ∈ (mergedDimensions (A ++ B)).map (fun d => d.name) ↔
      name ∈ (A ++ B).map (fun d => d.name)) ∧
    (∀ d ∈ mergedDimensions (A ++ B),
      d.score = pyRound (((groupScores (A ++ B) d.name).sum : ℚ) /
        ((groupScores (A ++ B) d.name).length : ℚ)) ∧
      d.rationale = (if (groupRationaleParts (A ++ B) d.name).isEmpty then none
        else some (String.intercalate "; " (groupRationaleParts (A ++ B) d.name)))) ∧
    (mergedDimensions (B ++ A)).map (fun d => (d.name, d.score)) =
      (mergedDimensions (A ++ B)).map (fun d => (d.name, d.score)) ∧
    overallScore (mergedDimensions (B ++ A)) rubric =
      overallScore (mergedDimensions (A ++ B)) rubric := by
  refine ⟨mergedDimensions_map_name _, ?_, ?_, ?_,
          mergedDimensions_swap_name_score A B,
          overallScore_congr (mergedDimensions_swap_name_score A B) rubric⟩
  · rw [mergedDimensions_map_name]
    exact sortedNames_sorted_lt _
  · intro name
    rw [mergedDimensions_map_name]
    exact sortedNames_mem _ name
  · intro d hd
    unfold mergedDimensions at hd
    obtain ⟨n, hn, rfl⟩ := List.mem_map.mp hd
    have hname : (mergeDimension (A ++ B) n).name = n := rfl
    have hmem : n ∈ (A ++ B).map (fun d => d.name) := (sortedNames_mem _ n).mp hn
    obtain ⟨d0, hd0, hd0n⟩ := List.mem_map.mp hmem
    have hpos : 0 < (groupScores (A ++ B) n).length := by
      unfold groupScores
      rw [List.length_map]
      apply List.length_pos.mpr
      intro hemp
      have hin : d0 ∈ (A ++ B).filter (fun d => d.name = n) :=
        List.mem_filter.mpr ⟨hd0, by simp [hd0n]⟩
      rw [hemp] at hin
      cases hin
    rw [hname]
    constructor
    · show (mergeDimension (A ++ B) n).score = _
      unfold mergeDimension
      dsimp only
      have hmax : max 1 (groupScores (A ++ B) n).length = (groupScores (A ++ B) n).length :=
        Nat.max_eq_right hpos
      rw [hmax, divInt_nat_eq_div]
    · rfl

/-- C3 witness: sources `[b:10 with rationale "x"]` and
    `[a:20 with rationale "y", b:30 with null rationale]` merge into
    `a` then `b` (sorted), with `b = round((10+30)/2) = 20` and only
    the truthy rationale kept, and the swap invariance holds. -/
theorem claim_C3_witness :
    (mergedDimensions ([⟨"b", 10, some "x"⟩] ++
      [⟨"a", 20, some "y"⟩, ⟨"b", 30, none⟩])).map (fun d => d.name) = ["a", "b"] ∧
    (⟨"b", 20, some "x"⟩ : ScoringDimension) ∈
      mergedDimensions ([⟨"b", 10, some "x"⟩] ++ [⟨"a", 20, some "y"⟩, ⟨"b", 30, none⟩]) ∧
    (⟨"b", 20, some "x"⟩ : ScoringDimension).score =
      pyRound (((groupScores ([⟨"b", 10, some "x"⟩] ++
        [⟨"a", 20, some "y"⟩, ⟨"b", 30, none⟩]) "b").sum : ℚ) /
        ((groupScores ([⟨"b", 10, some "x"⟩] ++
          [⟨"a", 20, some "y"⟩, ⟨"b", 30, none⟩]) "b").length : ℚ)) ∧
    overallScore (mergedDimensions ([⟨"a", 20, some "y"⟩, ⟨"b", 30, none⟩] ++
      [⟨"b", 10, some "x"⟩])) [] =
      overallScore (mergedDimensions ([⟨"b", 10, some "x"⟩] ++
        [⟨"a", 20, some "y"⟩, ⟨"b", 30, none⟩])) [] := by
  refine ⟨by decide, by decide, ?_, ?_⟩
  · exact ((claim_C3_amended [⟨"b", 10, some "x"⟩]
      [⟨"a", 20, some "y"⟩, ⟨"b", 30, none⟩] []).2.2.2.1
        ⟨"b", 20, some "x"⟩ (by decide)).1
  · exact (claim_C3_amended [⟨"b", 10, some "x"⟩]
      [⟨"a", 20, some "y"⟩, ⟨"b", 30, none⟩] []).2.2.2.2.2

end Talenti
